import Mathlib

/-! Verification development for the gobonsai ASCII bonsai generator.

The embedding follows the current (colored) source file: the canvas, the
seeded RNG stream threading, movement-delta and glyph selection, the
recursive branch generator and the base renderer, translated function by
function.  Machine integers are modelled as `Int` (all arithmetic in the
program stays far below 64-bit bounds); Go strings on the leaf path are
modelled as byte lists; fallible operations (integer division by zero,
indexing byte 0 of an empty string) return an explicit `panicked` outcome;
general recursion is bounded by an explicit fuel argument, with a dedicated
`fuelOut` outcome that is not a program behaviour. -/

namespace Gobonsai

/-- Branch kinds, from the source's `BranchType` enum. -/
inductive BranchType where
  | Trunk
  | ShootLeft
  | ShootRight
  | Dying
  | Dead
deriving DecidableEq

/-- Configuration fields that influence the generated canvas.  The
presentation-only fields of the Go `Config` (Live, Infinite, PrintTree,
TimeStep, TimeWait, Message) are omitted: the embedding models the batch
(non-live) drawing path, which produces the same canvas contents.  Leaf
strings are byte lists, as produced by splitting the `--leaf` flag. -/
structure Config where
  lifeStart : Int
  multiplier : Int
  baseType : Int
  seed : Int
  leaves : List (List Nat)
  width : Int
  height : Int
  useColors : Bool

def ColorYellow : String := "\x1b[33m"

def ColorBrightYellow : String := "\x1b[93m"

def ColorBrightGreen : String := "\x1b[92m"

def ColorMediumGreen : String := "\x1b[38;5;28m"

def ColorBrightBlack : String := "\x1b[90m"

/-- The PRNG: an abstract source function with a read position.
`rand.New(rand.NewSource(seed))` is external library code, so the stream it
produces is abstracted as an arbitrary `Nat → Nat` source; `Intn n` reads
the next source value reduced mod `n`, matching Intn's contract of a value
in `[0,n)`.  The position threading pins down the draw order. -/
structure Rng where
  f : Nat → Nat
  pos : Nat

/-- One `rng.Intn n` draw. -/
def intn (n : Nat) (r : Rng) : Nat × Rng := (r.f r.pos % n, ⟨r.f, r.pos + 1⟩)

/-- Result of running embedded Go code: a normal value, a runtime panic, or
exhaustion of the embedding's fuel bound (`fuelOut` is an artifact of the
embedding, not a program behaviour). -/
inductive Outcome (α : Type) where
  | ok : α → Outcome α
  | panicked : Outcome α
  | fuelOut : Outcome α

/-- Mutable `BonsaiTree` state threaded through generation: the two canvases,
the RNG, and the `branches`/`shoots` counters. -/
structure St where
  canvas : List (List Char)
  colors : List (List String)
  rng : Rng
  branches : Int
  shoots : Int

/-- `age := bt.config.LifeStart - life`, the age formula of the branch loop
(note: the global configured LifeStart, not the branch's own initial life). -/
def ageAt (cfg : Config) (life : Int) : Int := cfg.lifeStart - life

/-- The two dy adjustments of the branch loop, in source order: the ground
clamp (`dy > 0 && y > Height-7` decrements dy) followed by the first-step
lift (`age == 1 && dy >= 0` forces dy to -2). -/
def adjustDy (cfg : Config) (y age dy : Int) : Int :=
  let dy1 := if 0 < dy ∧ cfg.height - 7 < y then dy - 1 else dy
  if age = 1 ∧ 0 ≤ dy1 then -2 else dy1

/-- Shoot vertical dice: `dice<=1` up, `dice<=7` level, otherwise down.
Shared verbatim by the ShootLeft and ShootRight cases of `GetDeltas`. -/
def sDy (d : Nat) : Int := if d ≤ 1 then -1 else if d ≤ 7 then 0 else 1

/-- ShootLeft horizontal dice of `GetDeltas`. -/
def slDx (d : Nat) : Int := if d ≤ 1 then -2 else if d ≤ 5 then -1 else if d ≤ 8 then 0 else 1

/-- ShootRight horizontal dice of `GetDeltas`. -/
def srDx (d : Nat) : Int := if d ≤ 1 then 2 else if d ≤ 5 then 1 else if d ≤ 8 then 0 else -1

/-- `GetDeltas`: movement delta drawn from the RNG according to branch type,
remaining life and age.  The Trunk growth-phase divisor embeds
`int(float64(Multiplier)*0.5+0.5)`, which equals `(Multiplier+1)/2` exactly
for the validated range `Multiplier ∈ [0,20]` (halves are exact in float64);
a zero divisor would be a Go modulo panic, modelled explicitly. -/
def getDeltas (cfg : Config) (t : BranchType) (life age : Int) (r : Rng) :
    Outcome ((Int × Int) × Rng) :=
  match t with
  | .Trunk =>
    if age ≤ 2 ∨ life < 4 then
      let p := intn 3 r
      .ok ((Int.ofNat p.1 - 1, 0), p.2)
    else if age < cfg.multiplier * 3 then
      let divisor := (cfg.multiplier + 1).tdiv 2
      if divisor = 0 then .panicked
      else
        let dy : Int := if age.tmod divisor = 0 then -1 else 0
        let p := intn 10 r
        let dx : Int :=
          if p.1 = 0 then -2 else if p.1 ≤ 3 then -1 else if p.1 ≤ 5 then 0
          else if p.1 ≤ 8 then 1 else if p.1 = 9 then 2 else 0
        .ok ((dx, dy), p.2)
    else
      let p := intn 10 r
      let dy : Int := if 2 < p.1 then -1 else 0
      let q := intn 3 p.2
      .ok ((Int.ofNat q.1 - 1, dy), q.2)
  | .ShootLeft =>
    let p := intn 10 r
    let q := intn 10 p.2
    .ok ((slDx q.1, sDy p.1), q.2)
  | .ShootRight =>
    let p := intn 10 r
    let q := intn 10 p.2
    .ok ((srDx q.1, sDy p.1), q.2)
  | .Dying =>
    let p := intn 10 r
    let dy : Int := if p.1 ≤ 1 then -1 else if p.1 ≤ 8 then 0 else 1
    let q := intn 15 p.2
    let dx : Int :=
      if q.1 = 0 then -3 else if q.1 ≤ 2 then -2 else if q.1 ≤ 5 then -1
      else if q.1 ≤ 8 then 0 else if q.1 ≤ 11 then 1 else if q.1 ≤ 13 then 2 else 3
    .ok ((dx, dy), q.2)
  | .Dead =>
    let p := intn 10 r
    let dy : Int := if p.1 ≤ 2 then -1 else if p.1 ≤ 6 then 0 else 1
    let q := intn 3 p.2
    .ok ((Int.ofNat q.1 - 1, dy), q.2)

/-- The Dying/Dead arm of `ChooseChar`: draw a uniform index into the leaves
list and take byte 0 of the chosen string (`rune(Leaves[i][0])`); an empty
string there is a Go index-out-of-range panic; an empty list falls back
to the ampersand. -/
def leafGlyph (cfg : Config) (r : Rng) : Outcome (Char × Rng) :=
  if 0 < cfg.leaves.length then
    let p := intn cfg.leaves.length r
    match cfg.leaves.getD p.1 [] with
    | [] => .panicked
    | b :: _ => .ok (Char.ofNat b, p.2)
  else .ok ('&', r)

/-- `ChooseChar`: glyph selection; any kind is treated as Dying once
`life < 4`. -/
def chooseChar (cfg : Config) (t0 : BranchType) (life dx dy : Int) (r : Rng) :
    Outcome (Char × Rng) :=
  let t := if life < 4 then BranchType.Dying else t0
  match t with
  | .Trunk =>
    .ok ((if dy = 0 then '~' else if dx < 0 then '\\' else if dx = 0 then '|' else '/'), r)
  | .ShootLeft =>
    .ok ((if 0 < dy then '\\' else if dy = 0 then '_'
          else if dx < 0 then '\\' else if dx = 0 then '|' else '/'), r)
  | .ShootRight =>
    .ok ((if 0 < dy then '/' else if dy = 0 then '_'
          else if dx < 0 then '\\' else if dx = 0 then '|' else '/'), r)
  | .Dying => leafGlyph cfg r
  | .Dead => leafGlyph cfg r

/-- `GetBranchColor`: per-step color draw (consumes RNG for shoots and for
Dying/Dead, only when colors are on).  The second `dice == 9` arm of the
source's switch is unreachable (shadowed by the first) and kept as such. -/
def getBranchColor (cfg : Config) (t : BranchType) (r : Rng) : String × Rng :=
  if !cfg.useColors then ("", r)
  else
    match t with
    | .Trunk => (ColorYellow, r)
    | .ShootLeft =>
      let p := intn 4 r
      ((if p.1 = 0 then ColorYellow else ColorBrightYellow), p.2)
    | .ShootRight =>
      let p := intn 4 r
      ((if p.1 = 0 then ColorYellow else ColorBrightYellow), p.2)
    | .Dying =>
      let p := intn 10 r
      ((if p.1 ≤ 8 then ColorBrightGreen else if p.1 = 9 then ColorMediumGreen
        else if p.1 = 9 then ColorBrightYellow else ""), p.2)
    | .Dead =>
      let p := intn 10 r
      ((if p.1 ≤ 8 then ColorBrightGreen else if p.1 = 9 then ColorMediumGreen
        else if p.1 = 9 then ColorBrightYellow else ""), p.2)

/-- `SetPixel`: writes both canvases at (x,y) when (x,y) is inside the char
canvas, else leaves everything unchanged.  `List.set` is the in-bounds
update; the color canvas always has the same shape as the char canvas in
the program (both allocated width x height). -/
def setPixel (canvas : List (List Char)) (colors : List (List String))
    (x y : Int) (ch : Char) (color : String) :
    List (List Char) × List (List String) :=
  if 0 ≤ y ∧ y < (canvas.length : Int) ∧ 0 ≤ x ∧
      x < (((canvas.getD y.toNat []).length : Nat) : Int) then
    (canvas.set y.toNat ((canvas.getD y.toNat []).set x.toNat ch),
     colors.set y.toNat ((colors.getD y.toNat []).set x.toNat color))
  else (canvas, colors)

/-- The bounds test of `SetPixel`, as its own predicate. -/
def pixInBounds (canvas : List (List Char)) (x y : Int) : Prop :=
  0 ≤ y ∧ y < (canvas.length : Int) ∧ 0 ≤ x ∧
    x < (((canvas.getD y.toNat []).length : Nat) : Int)

instance (canvas : List (List Char)) (x y : Int) : Decidable (pixInBounds canvas x y) := by
  unfold pixInBounds; infer_instance

/-- Fresh width x height char canvas of blanks (`NewBonsaiTree` allocation /
`GrowTree` clear). -/
def mkCanvas (w h : Int) : List (List Char) :=
  List.replicate h.toNat (List.replicate w.toNat ' ')

/-- Fresh width x height color canvas of empty tags. -/
def mkColors (w h : Int) : List (List String) :=
  List.replicate h.toNat (List.replicate w.toNat "")

/-- `Branch` entry side effect: `bt.branches++`. -/
def enterB (st : St) : St := { st with branches := st.branches + 1 }

/-- Wraps a recursive `Branch` call's outcome, pairing the parent's cooldown
value to carry back into the loop. -/
def childRes (o : Outcome St) (cd : Int) : Outcome (St × Int) :=
  match o with
  | .ok s => .ok (s, cd)
  | .panicked => .panicked
  | .fuelOut => .fuelOut

/-- The branch-roll condition `bt.rng.Intn(3) == 0 || life%Multiplier == 0`
after the Intn(3) draw: the modulo is only evaluated when the roll misses
(Go short-circuits), and `life % 0` is a Go divide-by-zero panic. -/
def branchCond (cfg : Config) (roll3 : Nat) (life : Int) : Outcome Bool :=
  if roll3 = 0 then .ok true
  else if cfg.multiplier = 0 then .panicked
  else .ok (life.tmod cfg.multiplier = 0)

/-- Tail of a branch-loop iteration after the branching decision: advance the
cursor by the adjusted delta, pick the glyph and its color, stamp the cell,
and continue the loop (with the decremented life and cooldown) through
`rec`. -/
def stepDraw (cfg : Config)
    (rec : Int → Int → BranchType → Int → Int → St → Outcome St)
    (x y : Int) (t : BranchType) (life dx dy : Int) (stB : St) (cdB : Int) : Outcome St :=
  match chooseChar cfg t life dx dy stB.rng with
  | .panicked => .panicked
  | .fuelOut => .fuelOut
  | .ok (ch, rD) =>
    let cr := getBranchColor cfg t rD
    let cc := setPixel stB.canvas stB.colors (x + dx) (y + dy) ch cr.1
    rec (x + dx) (y + dy) t life (cdB - 1) { stB with canvas := cc.1, colors := cc.2, rng := cr.2 }

/-- One iteration of the `Branch` growth loop (source lines of the
`for life > 0` body), parameterized by `rec`, the fuel-limited recursive
entry used both for child branches and for the loop's own continuation.
`life0` is the loop variable before this iteration's decrement. -/
def branchBody (cfg : Config)
    (rec : Int → Int → BranchType → Int → Int → St → Outcome St)
    (x y : Int) (t : BranchType) (life0 cd : Int) (st : St) : Outcome St :=
  if life0 ≤ 0 then .ok st
  else
    let life := life0 - 1
    let age := ageAt cfg life
    match getDeltas cfg t life age st.rng with
    | .panicked => .panicked
    | .fuelOut => .fuelOut
    | .ok (d, r1) =>
      let dx := d.1
      let dy := adjustDy cfg y age d.2
      let st1 : St := { st with rng := r1 }
      let dec : Outcome (St × Int) :=
        if life < 3 then
          childRes (rec x y .Dead life cfg.multiplier (enterB st1)) cd
        else if t = .Trunk ∧ life < cfg.multiplier + 2 then
          childRes (rec x y .Dying life cfg.multiplier (enterB st1)) cd
        else if (t = .ShootLeft ∨ t = .ShootRight) ∧ life < cfg.multiplier + 2 then
          childRes (rec x y .Dying life cfg.multiplier (enterB st1)) cd
        else if t = .Trunk then
          let p3 := intn 3 st1.rng
          let st2 : St := { st1 with rng := p3.2 }
          match branchCond cfg p3.1 life with
          | .panicked => .panicked
          | .fuelOut => .fuelOut
          | .ok cond =>
            if cond then
              let p8 := intn 8 st2.rng
              let st3 : St := { st2 with rng := p8.2 }
              if p8.1 = 0 ∧ 7 < life then
                let p5 := intn 5 st3.rng
                let st4 : St := { st3 with rng := p5.2 }
                childRes (rec x y .Trunk (life + Int.ofNat p5.1 - 2) cfg.multiplier (enterB st4))
                  (cfg.multiplier * 2)
              else if cd ≤ 0 then
                let st4 : St := { st3 with shoots := st3.shoots + 1 }
                let k := if st4.shoots.tmod 2 = 0 then BranchType.ShootLeft else BranchType.ShootRight
                childRes (rec x y k (life + cfg.multiplier) cfg.multiplier (enterB st4))
                  (cfg.multiplier * 2)
              else .ok (st3, cd)
            else .ok (st2, cd)
        else .ok (st1, cd)
      match dec with
      | .panicked => .panicked
      | .fuelOut => .fuelOut
      | .ok (stB, cdB) => stepDraw cfg rec x y t life dx dy stB cdB

/-- The `Branch` growth loop, fuel-limited.  The entry effects
(`branches++`, `shootCooldown := Multiplier`) are applied by callers via
`enterB` and the cooldown argument; every child spawn and every loop
continuation descends one fuel level. -/
def branchGo (cfg : Config) : Nat → Int → Int → BranchType → Int → Int → St → Outcome St
  | 0, _, _, _, _, _, _ => .fuelOut
  | fuel + 1, x, y, t, life0, cd, st => branchBody cfg (branchGo cfg fuel) x y t life0 cd st

/-- `Branch(x, y, branchType, life)`: entry wrapper of the growth loop. -/
def branchTop (cfg : Config) (fuel : Nat) (x y : Int) (t : BranchType) (life : Int)
    (st : St) : Outcome St :=
  branchGo cfg fuel x y t life cfg.multiplier (enterB st)

/-- `GetBaseColor`. -/
def getBaseColor (cfg : Config) : String := if cfg.useColors then ColorBrightBlack else ""

/-- The grass glyph cycle of `DrawBase`, source literal
`".,~` + "`" + `'^\"*o%"`, written out as character codes because of the
quote characters it contains. -/
def grassChars : List Char :=
  [Char.ofNat 46, Char.ofNat 44, Char.ofNat 126, Char.ofNat 96, Char.ofNat 39,
   Char.ofNat 94, Char.ofNat 34, Char.ofNat 42, Char.ofNat 111, Char.ofNat 37]

/-- Per-character classification of base-1's top line in `DrawBase`: pot
markers keep the base color, underscores become cycled grass glyphs, the
pot rim chars turn yellow, interior blanks would become grass (unreachable
for this template), everything else keeps the base color. -/
def baseLine3Cell (cfg : Config) (i : Nat) (ch : Char) : Char × String :=
  let baseColor := getBaseColor cfg
  let grassColor := if cfg.useColors then ColorBrightGreen else ""
  if ch = '(' ∨ ch = ')' ∨ ch = '^' then (ch, baseColor)
  else if ch = '_' then
    (grassChars.getD ((((Int.ofNat i - 7) + 10).tmod 10).toNat) ' ', grassColor)
  else if ch = '.' ∨ ch = '/' ∨ ch = '~' ∨ ch = '\\' then (ch, ColorYellow)
  else if 0 < i ∧ i < 30 then
    ((if ch = ' ' then grassChars.getD (((Int.ofNat i - 7).tmod 10).toNat) ' ' else ch),
     grassColor)
  else (ch, baseColor)

/-- Stamp a row of classified (char, color) cells left to right starting at
`startX`, the way `DrawBase` loops `SetPixel` over a template line. -/
def stampCells (cc : List (List Char) × List (List String)) (startX y : Int)
    (cells : List (Char × String)) : List (List Char) × List (List String) :=
  cells.enum.foldl
    (fun acc ic => setPixel acc.1 acc.2 (startX + Int.ofNat ic.1) y ic.2.1 ic.2.2) cc

/-- The grass line of base 2 with its explicit per-cell bounds guard from the
source (checked before `SetPixel` is even called). -/
def stampGrassLine (cfg : Config) (cc : List (List Char) × List (List String))
    (startX y : Int) (color : String) (cells : List Char) :
    List (List Char) × List (List String) :=
  cells.enum.foldl
    (fun acc ic =>
      if 0 ≤ startX + Int.ofNat ic.1 ∧ startX + Int.ofNat ic.1 < cfg.width ∧ 0 ≤ y then
        setPixel acc.1 acc.2 (startX + Int.ofNat ic.1) y ic.2 color
      else acc) cc

/-- `DrawBase`: stamps the selected pot template (0 = none) centered at
`Width/2`, anchored to the bottom rows.  Deterministic: consumes no RNG. -/
def drawBase (cfg : Config) (cc : List (List Char) × List (List String)) :
    List (List Char) × List (List String) :=
  if cfg.baseType = 0 then cc
  else
    let baseY := cfg.height - 1
    let centerX := cfg.width.tdiv 2
    let baseColor := getBaseColor cfg
    if cfg.baseType = 1 then
      let line3 := ":___________./~~~\\.___________:"
      let cc := stampCells cc (centerX - (Int.ofNat line3.length).tdiv 2) (baseY - 3)
        (line3.data.enum.map fun ic => baseLine3Cell cfg ic.1 ic.2)
      let line2 := " \\                           / "
      let cc := stampCells cc (centerX - (Int.ofNat line2.length).tdiv 2) (baseY - 2)
        (line2.data.map fun c => (c, baseColor))
      let line1 := "  \\_________________________/ "
      let cc := stampCells cc (centerX - (Int.ofNat line1.length).tdiv 2) (baseY - 1)
        (line1.data.map fun c => (c, baseColor))
      let base := "   (^)                 (^)   "
      stampCells cc (centerX - (Int.ofNat base.length).tdiv 2) baseY
        (base.data.map fun c => (c, baseColor))
    else if cfg.baseType = 2 then
      let grassColor := if cfg.useColors then ColorMediumGreen else ""
      let grassLine := grassChars.take 7 ++ grassChars.take 7 ++ grassChars.take 7 ++
        [Char.ofNat 46]
      let cc := stampGrassLine cfg cc (centerX - (Int.ofNat grassLine.length).tdiv 2)
        (baseY - 3) grassColor grassLine
      let line2 := "  (^^^^^^^)  "
      let cc := stampCells cc (centerX - (Int.ofNat line2.length).tdiv 2) (baseY - 2)
        (line2.data.map fun c => (c, grassColor))
      let line1 := " (           ) "
      let cc := stampCells cc (centerX - (Int.ofNat line1.length).tdiv 2) (baseY - 1)
        (line1.data.map fun c => (c, baseColor))
      let base := "(---./~~~\\.---)"
      stampCells cc (centerX - (Int.ofNat base.length).tdiv 2) baseY
        (base.data.map fun c => (c, baseColor))
    else cc

/-- `GrowTree` (batch path): reset counters, clear both canvases, stamp the
base, then grow the trunk from `(Width/2, Height+2 - 5·[base>0])` with the
configured life.  The PRNG is obtained from the seed through `rngFor`, the
(deterministic) external generator constructor. -/
def growTree (rngFor : Int → Rng) (cfg : Config) (fuel : Nat) : Outcome St :=
  let cc := drawBase cfg (mkCanvas cfg.width cfg.height, mkColors cfg.width cfg.height)
  let startX := cfg.width.tdiv 2
  let startY := cfg.height + 2 - (if 0 < cfg.baseType then 5 else 0)
  branchTop cfg fuel startX startY .Trunk cfg.lifeStart
    { canvas := cc.1, colors := cc.2, rng := rngFor cfg.seed, branches := 0, shoots := 0 }

/-- `strings.Split` on a single comma byte (44), over byte lists; adjacent
separators yield empty segments, as in Go. -/
def goSplit : List Nat → List (List Nat)
  | [] => [[]]
  | b :: rest =>
    if b = 44 then [] :: goSplit rest
    else
      match goSplit rest with
      | [] => [[b]]
      | g :: gs => (b :: g) :: gs

/-- Extract the delta of a `getDeltas` outcome. -/
def deltaDy : Outcome ((Int × Int) × Rng) → Option Int
  | .ok (d, _) => some d.2
  | _ => none

/-- Extract the glyph of a `chooseChar` outcome. -/
def glyphOf : Outcome (Char × Rng) → Option Char
  | .ok (c, _) => some c
  | _ => none

/-- Extract the char canvas of a finished generation. -/
def canvasOf : Outcome St → Option (List (List Char))
  | .ok s => some s.canvas
  | _ => none

/-- Row-length profile of a canvas (its visible dimensions). -/
def shape (c : List (List Char)) : List Nat := c.map List.length

/-- Apply a sequence of `SetPixel` calls, in order. -/
def applyCalls (cc : List (List Char) × List (List String)) :
    List (Int × Int × Char × String) → List (List Char) × List (List String)
  | [] => cc
  | c :: rest => applyCalls (setPixel cc.1 cc.2 c.1 c.2.1 c.2.2.1 c.2.2.2) rest

/-- A concrete configuration with the default tunables on a 40x20 canvas
(leaves are the default `&,*,o,@,%` split). -/
def cfgT1 : Config :=
  { lifeStart := 10, multiplier := 3, baseType := 1, seed := 0,
    leaves := [[38], [42], [111], [64], [37]], width := 40, height := 20, useColors := false }

/-- A concrete configuration with the default starting life of 32. -/
def cfg32 : Config :=
  { lifeStart := 32, multiplier := 5, baseType := 1, seed := 0,
    leaves := [[38], [42], [111], [64], [37]], width := 40, height := 20, useColors := true }

/-- Configuration exhibiting the `life % 0` panic: multiplier 0 and life 4,
both inside the ranges the CLI validation accepts. -/
def cfgM0 : Config :=
  { lifeStart := 4, multiplier := 0, baseType := 0, seed := 0,
    leaves := [[38]], width := 20, height := 20, useColors := false }

/-- Configuration for the unbounded-recursion stream: starting life 9,
multiplier 5. -/
def cfg9 : Config :=
  { lifeStart := 9, multiplier := 5, baseType := 0, seed := 42,
    leaves := [[38]], width := 20, height := 20, useColors := false }

/-- The adversarial RNG source: every draw returns 24, so every trunk
iteration passes the 1-in-3 branch roll (24 % 3 = 0), the 1-in-8 fork roll
(24 % 8 = 0), and perturbs the forked child's life by +2 (24 % 5 - 2). -/
def advF : Nat → Nat := fun _ => 24

/-- A fresh 20x20 state over a given RNG source. -/
def st20 (f : Nat → Nat) : St :=
  { canvas := mkCanvas 20 20, colors := mkColors 20 20, rng := ⟨f, 0⟩,
    branches := 0, shoots := 0 }

/-- Fuel that suffices for a branch entry of the given kind and life when no
trunk fork ever fires: the branch runs for `life` iterations, and every
child it can spawn (Dead/Dying with the decremented life, shoots with
life + multiplier) needs strictly less. -/
def fuelNeed (cfg : Config) : BranchType → Int → Nat
  | .Trunk, l => l.toNat + cfg.multiplier.toNat + 2
  | .ShootLeft, l => l.toNat + 1
  | .ShootRight, l => l.toNat + 1
  | .Dying, l => l.toNat + 1
  | .Dead, l => l.toNat + 1

end Gobonsai

namespace Gobonsai

/-! Helper lemmas about list updates. -/

theorem getD_set_self {α : Type} (l : List α) (i : Nat) (a d : α) (h : i < l.length) :
    (l.set i a).getD i d = a := by
  induction l generalizing i with
  | nil => simp at h
  | cons b bs ih =>
    cases i with
    | zero => rfl
    | succ j => simpa using ih j (by simpa using h)

theorem map_length_set_of_length_eq (canvas : List (List Char)) (i : Nat) (row : List Char)
    (h : row.length = (canvas.getD i []).length) :
    (canvas.set i row).map List.length = canvas.map List.length := by
  induction canvas generalizing i with
  | nil => simp
  | cons r rs ih =>
    cases i with
    | zero => simpa using h
    | succ j =>
      simp only [List.set, List.map_cons, List.cons.injEq, true_and]
      exact ih j (by simpa using h)

theorem shape_setPixel (canvas : List (List Char)) (colors : List (List String))
    (x y : Int) (ch : Char) (color : String) :
    shape (setPixel canvas colors x y ch color).1 = shape canvas := by
  unfold setPixel shape
  split
  · exact map_length_set_of_length_eq _ _ _ (by simp)
  · rfl

theorem shape_applyCalls (calls : List (Int × Int × Char × String)) :
    ∀ (canvas : List (List Char)) (colors : List (List String)),
      shape (applyCalls (canvas, colors) calls).1 = shape canvas := by
  induction calls with
  | nil => intro canvas colors; rfl
  | cons c rest ih =>
    intro canvas colors
    show shape (applyCalls (setPixel canvas colors c.1 c.2.1 c.2.2.1 c.2.2.2) rest).1 = _
    rw [show setPixel canvas colors c.1 c.2.1 c.2.2.1 c.2.2.2 =
        ((setPixel canvas colors c.1 c.2.1 c.2.2.1 c.2.2.2).1,
         (setPixel canvas colors c.1 c.2.1 c.2.2.1 c.2.2.2).2) from rfl]
    rw [ih]
    exact shape_setPixel canvas colors c.1 c.2.1 c.2.2.1 c.2.2.2

/-- C2: every `SetPixel` call writes only in-bounds cells and otherwise is a
no-op — over any call sequence with arbitrary (negative or over-sized)
coordinates the canvas dimensions never change, an out-of-bounds call
leaves both canvases untouched, and an in-bounds call stores the glyph at
exactly the addressed cell (the function is total, so no call can error). -/
theorem setPixel_clipping_safe (canvas : List (List Char)) (colors : List (List String))
    (calls : List (Int × Int × Char × String)) :
    shape (applyCalls (canvas, colors) calls).1 = shape canvas
  ∧ (∀ (x y : Int) (ch : Char) (color : String), ¬ pixInBounds canvas x y →
      setPixel canvas colors x y ch color = (canvas, colors))
  ∧ (∀ (x y : Int) (ch : Char) (color : String), pixInBounds canvas x y →
      ((setPixel canvas colors x y ch color).1.getD y.toNat []).getD x.toNat ' ' = ch) := by
  refine ⟨shape_applyCalls calls canvas colors, ?_, ?_⟩
  · intro x y ch color h
    unfold pixInBounds at h
    unfold setPixel
    rw [if_neg h]
  · intro x y ch color h
    obtain ⟨h0, h1, h2, h3⟩ := h
    unfold setPixel
    rw [if_pos ⟨h0, h1, h2, h3⟩]
    have hy : y.toNat < canvas.length := by omega
    have hx : x.toNat < (canvas.getD y.toNat []).length := by
      have := List.length_set (canvas.getD y.toNat []) x.toNat ch
      omega
    rw [getD_set_self canvas y.toNat _ [] hy]
    exact getD_set_self _ x.toNat ch ' ' (by simpa using hx)

/-- C2 witness: the bounds theorem at a concrete 2x2 canvas, a concrete call
list, an out-of-bounds call at (5,-1) and an in-bounds write at (1,0). -/
theorem setPixel_clipping_safe_w :
    shape (applyCalls (mkCanvas 2 2, mkColors 2 2) [(9, 9, 'x', ""), (0, 1, 'y', "")]).1 =
      shape (mkCanvas 2 2)
  ∧ setPixel (mkCanvas 2 2) (mkColors 2 2) 5 (-1) 'z' "" = (mkCanvas 2 2, mkColors 2 2)
  ∧ ((setPixel (mkCanvas 2 2) (mkColors 2 2) 1 0 'w' "").1.getD (0 : Int).toNat []).getD
      (1 : Int).toNat ' ' = 'w' := by
  have h := setPixel_clipping_safe (mkCanvas 2 2) (mkColors 2 2) [(9, 9, 'x', ""), (0, 1, 'y', "")]
  exact ⟨h.1, h.2.1 5 (-1) 'z' "" (by decide), h.2.2 1 0 'w' "" (by decide)⟩

/-! Shoot delta distribution (claim C5). -/

theorem getDeltas_shootLeft_eq (cfg : Config) (l a : Int) (f : Nat → Nat) (p : Nat) :
    getDeltas cfg .ShootLeft l a ⟨f, p⟩ =
      .ok ((slDx (f (p + 1) % 10), sDy (f p % 10)), ⟨f, p + 1 + 1⟩) := rfl

theorem getDeltas_shootRight_eq (cfg : Config) (l a : Int) (f : Nat → Nat) (p : Nat) :
    getDeltas cfg .ShootRight l a ⟨f, p⟩ =
      .ok ((srDx (f (p + 1) % 10), sDy (f p % 10)), ⟨f, p + 1 + 1⟩) := rfl

/-- C5 counterexample: the shoot vertical dice sends 2 of the 10 equiprobable
dice values upward (dice 0 and 1 give dy = -1), not 1 of 10 — the claimed
10% up / 60% level / 30% down distribution is wrong (the code's is
20% / 60% / 20%). -/
theorem shoot_up_weight_not_ten_percent :
    ((Finset.range 10).filter
      (fun d => deltaDy (getDeltas cfgT1 .ShootLeft 20 3 ⟨fun _ => d, 0⟩) = some (-1))).card = 2
  ∧ ((Finset.range 10).filter
      (fun d => deltaDy (getDeltas cfgT1 .ShootLeft 20 3 ⟨fun _ => d, 0⟩) = some (-1))).card
      ≠ 1 := by
  constructor <;> decide

/-- C5 amended: on every growth step of a shoot, both shoot kinds draw the
identical vertical dice — 20% up (dice 0-1), 60% level (dice 2-7), 20% down
(dice 8-9) — and their horizontal dice are exact mirror images along x. -/
theorem shoot_deltas_mirrored_20_60_20 (cfg : Config) (l a : Int) (f : Nat → Nat)
    (p d : Nat) :
    getDeltas cfg .ShootLeft l a ⟨f, p⟩ =
      .ok ((slDx (f (p + 1) % 10), sDy (f p % 10)), ⟨f, p + 1 + 1⟩)
  ∧ getDeltas cfg .ShootRight l a ⟨f, p⟩ =
      .ok ((srDx (f (p + 1) % 10), sDy (f p % 10)), ⟨f, p + 1 + 1⟩)
  ∧ srDx (d % 10) = -slDx (d % 10)
  ∧ ((Finset.range 10).filter (fun e => sDy e = -1)).card = 2
  ∧ ((Finset.range 10).filter (fun e => sDy e = 0)).card = 6
  ∧ ((Finset.range 10).filter (fun e => sDy e = 1)).card = 2 := by
  refine ⟨rfl, rfl, ?_, by decide, by decide, by decide⟩
  have hb : d % 10 < 10 := Nat.mod_lt _ (by norm_num)
  have hall : ∀ e < 10, srDx e = -slDx e := by decide
  exact hall _ hb

/-! Glyph table (claim C6). -/

/-- C6 counterexample: at remaining life 3 (< 4) `ChooseChar` overrides the
kind to Dying, so Trunk with dy = 0 yields a leaf glyph (here the default
leaves' first entry, the ampersand), not the tilde. -/
theorem chooseChar_trunk_level_low_life_not_tilde :
    glyphOf (chooseChar cfgT1 .Trunk 3 5 0 ⟨fun _ => 0, 0⟩) = some '&'
  ∧ glyphOf (chooseChar cfgT1 .Trunk 3 5 0 ⟨fun _ => 0, 0⟩) ≠ some '~' := by
  constructor <;> decide

/-- C6 amended: for remaining life at least 4 (where the Dying override is
inert), Trunk with dy = 0 always stamps the tilde regardless of dx, and
ShootLeft with dy > 0 always stamps the backslash. -/
theorem chooseChar_glyph_table_life_ge_4 (cfg : Config) (life dx dy : Int) (r : Rng)
    (h4 : 4 ≤ life) :
    chooseChar cfg .Trunk life dx 0 r = .ok ('~', r)
  ∧ (0 < dy → chooseChar cfg .ShootLeft life dx dy r = .ok ('\\', r)) := by
  have hl : ¬ life < 4 := by omega
  constructor
  · simp [chooseChar, hl]
  · intro hdy
    simp [chooseChar, hl, hdy, show ¬ dy = 0 by omega]

/-- C6 amended witness: the glyph table at life 4, dx 5, dy 1. -/
theorem chooseChar_glyph_table_life_ge_4_w :
    chooseChar cfgT1 .Trunk 4 5 0 ⟨fun _ => 0, 0⟩ = .ok ('~', ⟨fun _ => 0, 0⟩)
  ∧ chooseChar cfgT1 .ShootLeft 4 5 1 ⟨fun _ => 0, 0⟩ = .ok ('\\', ⟨fun _ => 0, 0⟩) := by
  have h := chooseChar_glyph_table_life_ge_4 cfgT1 4 5 1 ⟨fun _ => 0, 0⟩ (by decide)
  exact ⟨h.1, h.2 (by decide)⟩

/-! First-step lift (claim C7) and the age formula (claim C8). -/

/-- C7 counterexample: the lift tests `age == 1` with the global
`age = LifeStart - life`, so a child branch spawned with initial life 2
under the default LifeStart 32 reaches its first step with age 31, and a
level draw (dy = 0, with the origin far from the ground clamp) stays level:
its first stamped cell is on the origin's own row, not strictly above it. -/
theorem first_step_lift_misses_child_branches :
    adjustDy cfg32 2 (ageAt cfg32 1) 0 = 0
  ∧ ¬ adjustDy cfg32 2 (ageAt cfg32 1) 0 < 0 := by
  constructor <;> decide

/-- C7 amended: the first-step lift fires exactly at the step where
`LifeStart - life = 1`; for the root trunk (whose initial life is
LifeStart) that is its very first growth step, and there the adjusted dy is
always negative — the root branch's first stamped cell lies strictly above
its origin.  Branches spawned with a different initial life get no such
guarantee (and the older uncolored source has no lift at all). -/
theorem root_first_step_forced_upward (cfg : Config) (y dy : Int) :
    adjustDy cfg y (ageAt cfg (cfg.lifeStart - 1)) dy < 0 := by
  have h1 : ageAt cfg (cfg.lifeStart - 1) = 1 := by unfold ageAt; omega
  have key : ∀ d1 : Int, (if (1 : Int) = 1 ∧ 0 ≤ d1 then (-2 : Int) else d1) < 0 := by
    intro d1
    split_ifs with h <;> omega
  rw [h1]
  show (if (1 : Int) = 1 ∧ 0 ≤ (if 0 < dy ∧ cfg.height - 7 < y then dy - 1 else dy) then (-2 : Int)
        else (if 0 < dy ∧ cfg.height - 7 < y then dy - 1 else dy)) < 0
  exact key _

/-- C8 counterexample: the loop computes `age = LifeStart - life` from the
global configured LifeStart.  For a branch spawned with its own initial
life 20 under LifeStart 32, the first iteration (remaining life 19) gets
age 13, while the branch's own step count is 20 - 19 = 1. -/
theorem age_uses_global_lifeStart :
    ageAt cfg32 19 = 13
  ∧ (20 : Int) - 19 = 1
  ∧ ageAt cfg32 19 ≠ 20 - 19 := by
  refine ⟨by decide, by decide, by decide⟩

/-- Helper: both Dying and Dead (under any life) route `ChooseChar` to the
leaf-glyph draw. -/
theorem chooseChar_dying_dead (cfg : Config) (life dx dy : Int) (r : Rng)
    (t : BranchType) (ht : t = .Dying ∨ t = .Dead) :
    chooseChar cfg t life dx dy r = leafGlyph cfg r := by
  rcases ht with h | h <;> subst h <;> unfold chooseChar <;>
    by_cases hl : life < 4 <;> simp [hl]

/-- C9: for Dying/Dead kinds the glyph is drawn from the configured leaves
list by a uniform index draw (`Intn(len)`), ignoring dx and dy entirely,
taking the first byte of the selected string; with an empty leaves list the
glyph is always the ampersand and no RNG is consumed. -/
theorem dying_dead_leaf_glyph (cfg : Config) (t : BranchType)
    (ht : t = .Dying ∨ t = .Dead) (life dx dy dx2 dy2 : Int) (f : Nat → Nat) (p : Nat) :
    (cfg.leaves = [] → chooseChar cfg t life dx dy ⟨f, p⟩ = .ok ('&', ⟨f, p⟩))
  ∧ chooseChar cfg t life dx dy ⟨f, p⟩ = chooseChar cfg t life dx2 dy2 ⟨f, p⟩
  ∧ (∀ (b : Nat) (bs : List Nat),
      cfg.leaves.getD (f p % cfg.leaves.length) [] = b :: bs →
      chooseChar cfg t life dx dy ⟨f, p⟩ = .ok (Char.ofNat b, ⟨f, p + 1⟩)) := by
  rw [chooseChar_dying_dead cfg life dx dy ⟨f, p⟩ t ht,
    chooseChar_dying_dead cfg life dx2 dy2 ⟨f, p⟩ t ht]
  refine ⟨?_, rfl, ?_⟩
  · intro h
    simp [leafGlyph, h]
  · intro b bs hsel
    have hlen : 0 < cfg.leaves.length := by
      by_contra hh
      have hnil : cfg.leaves = [] := List.length_eq_zero.mp (by omega)
      rw [hnil] at hsel
      simp at hsel
    unfold leafGlyph
    rw [if_pos hlen]
    simp only [intn]
    rw [hsel]

/-- C9 witness: the leaf draw at the default leaves (dice 1 of 5 selects the
asterisk, independent of dx/dy), and the ampersand fallback on an empty
leaves list. -/
theorem dying_dead_leaf_glyph_w :
    chooseChar cfg32 .Dying 10 1 2 ⟨fun _ => 1, 0⟩ = chooseChar cfg32 .Dying 10 3 4 ⟨fun _ => 1, 0⟩
  ∧ chooseChar cfg32 .Dying 10 1 2 ⟨fun _ => 1, 0⟩ = .ok (Char.ofNat 42, ⟨fun _ => 1, 1⟩)
  ∧ chooseChar { cfgT1 with leaves := [] } .Dead 10 1 2 ⟨fun _ => 1, 0⟩
      = .ok ('&', ⟨fun _ => 1, 0⟩) := by
  have h := dying_dead_leaf_glyph cfg32 .Dying (Or.inl rfl) 10 1 2 3 4 (fun _ => 1) 0
  have h2 := dying_dead_leaf_glyph { cfgT1 with leaves := [] } .Dead (Or.inr rfl)
    10 1 2 3 4 (fun _ => 1) 0
  exact ⟨h.2.1, h.2.2 42 [] (by decide), h2.1 rfl⟩

/-- C10: the Go `--leaf` argument is split on commas (adjacent commas produce
empty strings), the Dying/Dead glyph draw uses only byte 0 of the selected
string (any further bytes are silently dropped), and selecting an empty
string is an index-out-of-range panic — well-definedness needs every leaf
string non-empty. -/
theorem leaf_first_byte_truncation_and_empty_string_panic :
    goSplit [38, 44, 44, 37] = [[38], [], [37]]
  ∧ chooseChar { cfgT1 with leaves := goSplit [38, 44, 44, 37] } .Dying 10 0 0 ⟨fun _ => 1, 0⟩
      = .panicked
  ∧ (∀ (cfg : Config) (b : Nat) (bs : List Nat) (life dx dy : Int) (f : Nat → Nat) (p : Nat),
      cfg.leaves = [b :: bs] →
      chooseChar cfg .Dead life dx dy ⟨f, p⟩ = .ok (Char.ofNat b, ⟨f, p + 1⟩)) := by
  refine ⟨rfl, rfl, ?_⟩
  intro cfg b bs life dx dy f p hleaves
  rw [chooseChar_dying_dead cfg life dx dy ⟨f, p⟩ .Dead (Or.inr rfl)]
  unfold leafGlyph
  rw [hleaves]
  simp [intn, Nat.mod_one]

/-- C10 witness: a three-byte leaf string stamps only its first byte. -/
theorem leaf_first_byte_truncation_w :
    chooseChar { cfgT1 with leaves := [[64, 65, 66]] } .Dead 10 0 0 ⟨fun _ => 7, 0⟩
      = .ok (Char.ofNat 64, ⟨fun _ => 7, 1⟩) :=
  leaf_first_byte_truncation_and_empty_string_panic.2.2 _ 64 [65, 66] 10 0 0 _ 0 rfl

/-- C3 (failing run): with multiplier 0 and life 4 — both accepted by the
CLI validation — the very first trunk iteration reaches
`life % Multiplier` whenever the 1-in-3 roll misses, and Go panics with an
integer divide by zero.  The stream drawing 1 everywhere makes that roll
miss immediately. -/
theorem branch_modulo_zero_multiplier_panics :
    branchTop cfgM0 10 10 10 .Trunk 4 (st20 (fun _ => 1)) = .panicked := rfl

/-- C1: the generated pair of canvases is a deterministic function of the
seed, the configuration and the dimensions: the PRNG constructor is
consulted exactly once, on the configured seed, and any two executions that
agree on the configuration and on the stream that the constructor returns
for that seed produce identical outcomes (hence byte-identical canvases),
for every fuel bound. -/
theorem growTree_deterministic (rngFor rngFor2 : Int → Rng) (cfg cfg2 : Config) (fuel : Nat)
    (hcfg : cfg = cfg2) (hrng : rngFor cfg.seed = rngFor2 cfg2.seed) :
    growTree rngFor cfg fuel = growTree rngFor2 cfg2 fuel := by
  subst hcfg
  unfold growTree
  rw [hrng]

/-- C1 witness: two runs over PRNG constructors that agree on seed 0. -/
theorem growTree_deterministic_w :
    growTree (fun _ => ⟨fun _ => 3, 0⟩) cfgT1 30 =
      growTree (fun s => if s = 0 then ⟨fun _ => 3, 0⟩ else ⟨fun _ => 9, 9⟩) cfgT1 30 :=
  growTree_deterministic _ _ _ _ 30 rfl rfl

/-- C8 amended: the computed age at a branch iteration with remaining life
`l0 - k` (its own initial life l0, k steps taken) equals the branch's own
step count k exactly when the branch's initial life equals the global
LifeStart — true for the root trunk, false in general for shoots
(spawned with life+multiplier) and perturbed trunk forks. -/
theorem age_matches_own_steps_iff_started_at_lifeStart (cfg : Config) (l0 k : Int) :
    ageAt cfg (l0 - k) = k ↔ cfg.lifeStart = l0 := by
  unfold ageAt
  omega


/-! Claim C4: termination of the branch recursion. -/

/-- On the constant-24 stream every trunk iteration forks a trunk child with
life + 1 (dice: 24 % 3 = 0 passes the branch roll, 24 % 8 = 0 passes the
fork roll, 24 % 5 - 2 = +2 jitter), so from any life at least 9 the
recursion outruns every fuel bound. -/
theorem adv_trunk_fuelOut :
    ∀ (fuel : Nat) (x y cd : Int) (st : St), st.rng.f = advF →
      ∀ life : Int, 9 ≤ life → branchGo cfg9 fuel x y .Trunk life cd st = .fuelOut := by
  intro fuel
  induction fuel with
  | zero => intro x y cd st hst life hl; rfl
  | succ n ih =>
    intro x y cd st hst life hl
    show branchBody cfg9 (branchGo cfg9 n) x y .Trunk life cd st = .fuelOut
    have hgd : getDeltas cfg9 .Trunk (life - 1) (ageAt cfg9 (life - 1)) st.rng =
        .ok ((-1, 0), ⟨advF, st.rng.pos + 1⟩) := by
      have hage : ageAt cfg9 (life - 1) ≤ 2 := by
        simp only [ageAt, cfg9]; omega
      simp only [getDeltas]
      rw [if_pos (Or.inl hage)]
      simp [intn, hst, advF]
    simp only [branchBody]
    rw [if_neg (show ¬ life ≤ 0 by omega)]
    rw [hgd]
    simp only [intn, hst, advF, branchCond]
    rw [if_neg (show ¬ life - 1 < 3 by omega)]
    rw [if_neg (show ¬ (True ∧ life - 1 < cfg9.multiplier + 2) from
      fun h => absurd h.2 (by simp only [cfg9]; omega))]
    rw [if_neg (show ¬ ((BranchType.Trunk = BranchType.ShootLeft ∨
        BranchType.Trunk = BranchType.ShootRight) ∧ life - 1 < cfg9.multiplier + 2) from
      fun h => by rcases h.1 with hh | hh <;> exact absurd hh (by decide))]
    rw [if_pos trivial]
    rw [if_pos trivial]
    rw [if_pos (show True ∧ 7 < life - 1 from ⟨trivial, by omega⟩)]
    rw [ih x y cfg9.multiplier _ rfl _
      (by have h45 : Int.ofNat (24 % 5) = 4 := rfl; omega)]
    rfl

theorem getDeltas_shape (cfg : Config) (t : BranchType) (l a : Int) (r : Rng) :
    getDeltas cfg t l a r = .panicked ∨
    ∃ d r2, getDeltas cfg t l a r = .ok (d, r2) ∧ r2.f = r.f := by
  cases t <;> simp only [getDeltas, intn] <;> (try split_ifs) <;>
    first
      | exact Or.inl rfl
      | exact Or.inr ⟨_, _, rfl, rfl⟩

theorem leafGlyph_shape (cfg : Config) (r : Rng) :
    leafGlyph cfg r = .panicked ∨
    ∃ c r2, leafGlyph cfg r = .ok (c, r2) ∧ r2.f = r.f := by
  unfold leafGlyph
  split_ifs with h
  · simp only [intn]
    cases hgd : cfg.leaves.getD (r.f r.pos % cfg.leaves.length) [] with
    | nil => exact Or.inl rfl
    | cons b bs => exact Or.inr ⟨_, _, rfl, rfl⟩
  · exact Or.inr ⟨_, _, rfl, rfl⟩

theorem chooseChar_shape (cfg : Config) (t : BranchType) (life dx dy : Int) (r : Rng) :
    chooseChar cfg t life dx dy r = .panicked ∨
    ∃ c r2, chooseChar cfg t life dx dy r = .ok (c, r2) ∧ r2.f = r.f := by
  unfold chooseChar
  by_cases hl : life < 4 <;> simp only [hl, if_true, if_false, ite_true, ite_false] <;>
    cases t <;>
    first
      | exact leafGlyph_shape cfg r
      | exact Or.inr ⟨_, _, rfl, rfl⟩

theorem getBranchColor_f (cfg : Config) (t : BranchType) (r : Rng) :
    (getBranchColor cfg t r).2.f = r.f := by
  unfold getBranchColor
  split <;> cases t <;> rfl

theorem stepDraw_spec (cfg : Config) (f : Nat → Nat)
    (rec : Int → Int → BranchType → Int → Int → St → Outcome St)
    (x y : Int) (t : BranchType) (life dx dy : Int) (stB : St) (cdB : Int)
    (hst : stB.rng.f = f)
    (hrec : ∀ (x2 y2 cd2 : Int) (st2 : St), st2.rng.f = f →
        rec x2 y2 t life cd2 st2 ≠ .fuelOut ∧
        (∀ s, rec x2 y2 t life cd2 st2 = .ok s → s.rng.f = f)) :
    stepDraw cfg rec x y t life dx dy stB cdB ≠ .fuelOut ∧
    (∀ s, stepDraw cfg rec x y t life dx dy stB cdB = .ok s → s.rng.f = f) := by
  unfold stepDraw
  rcases chooseChar_shape cfg t life dx dy stB.rng with h | ⟨c, r2, h, hf2⟩
  · rw [h]
    exact ⟨(fun hh => nomatch hh), (fun s hs => nomatch hs)⟩
  · rw [h]
    refine hrec _ _ _ _ ?_
    show (getBranchColor cfg t r2).2.f = f
    rw [getBranchColor_f, hf2, hst]

theorem branchCond_ne_fuelOut (cfg : Config) (r3 : Nat) (l : Int) :
    branchCond cfg r3 l ≠ .fuelOut := by
  unfold branchCond
  split_ifs <;> exact fun h => nomatch h

theorem branchGo_no_fork (cfg : Config) (f : Nat → Nat) (hf : ∀ i, f i % 8 ≠ 0) :
    ∀ (fuel : Nat) (t : BranchType) (life x y cd : Int) (st : St),
      st.rng.f = f → fuelNeed cfg t life ≤ fuel →
      branchGo cfg fuel x y t life cd st ≠ .fuelOut ∧
      (∀ s, branchGo cfg fuel x y t life cd st = .ok s → s.rng.f = f) := by
  intro fuel
  induction fuel with
  | zero =>
    intro t life x y cd st hst hfl
    exfalso
    cases t <;> simp [fuelNeed] at hfl
  | succ n ih =>
    intro t life x y cd st hst hfl
    show branchBody cfg (branchGo cfg n) x y t life cd st ≠ Outcome.fuelOut ∧
      (∀ s, branchBody cfg (branchGo cfg n) x y t life cd st = Outcome.ok s → s.rng.f = f)
    by_cases h0 : life ≤ 0
    · simp only [branchBody, if_pos h0]
      exact ⟨(fun hh => nomatch hh), (fun s hs => by cases hs; exact hst)⟩
    · have hcontA : ∀ (x2 y2 cd2 : Int) (st2 : St), st2.rng.f = f →
          branchGo cfg n x2 y2 t (life - 1) cd2 st2 ≠ .fuelOut ∧
          (∀ s, branchGo cfg n x2 y2 t (life - 1) cd2 st2 = .ok s → s.rng.f = f) := by
        intro x2 y2 cd2 st2 hst2
        exact ih t (life - 1) x2 y2 cd2 st2 hst2
          (by cases t <;> simp only [fuelNeed] at hfl ⊢ <;> omega)
      have hbDead : fuelNeed cfg .Dead (life - 1) ≤ n := by
        cases t <;> simp only [fuelNeed] at hfl ⊢ <;> omega
      have hbDying : fuelNeed cfg .Dying (life - 1) ≤ n := by
        cases t <;> simp only [fuelNeed] at hfl ⊢ <;> omega
      rcases getDeltas_shape cfg t (life - 1) (ageAt cfg (life - 1)) st.rng with hgd | ⟨d, r2, hgd, hr2⟩
      · simp only [branchBody, if_neg h0, hgd]
        exact ⟨(fun hh => nomatch hh), (fun s hs => nomatch hs)⟩
      · have hr2f : r2.f = f := by rw [hr2, hst]
        by_cases hA : life - 1 < 3
        · have hch := ih .Dead (life - 1) x y cfg.multiplier (enterB { st with rng := r2 })
            (by simp [enterB, hr2f]) hbDead
          cases hcase : branchGo cfg n x y .Dead (life - 1) cfg.multiplier
              (enterB { st with rng := r2 }) with
          | ok s =>
            simp only [branchBody, childRes, hgd, h0, hA, hcase, if_true, if_false]
            exact stepDraw_spec cfg f (branchGo cfg n) x y t (life - 1) _ _ _ _
              (hch.2 s hcase) hcontA
          | panicked =>
            simp only [branchBody, childRes, hgd, h0, hA, hcase, if_true, if_false]
            exact ⟨(fun hh => nomatch hh), (fun s hs => nomatch hs)⟩
          | fuelOut => exact absurd hcase hch.1
        · by_cases hB : t = .Trunk ∧ life - 1 < cfg.multiplier + 2
          · obtain ⟨hT, hBlt⟩ := hB
            subst hT
            have hch := ih .Dying (life - 1) x y cfg.multiplier (enterB { st with rng := r2 })
              (by simp [enterB, hr2f]) hbDying
            cases hcase : branchGo cfg n x y .Dying (life - 1) cfg.multiplier
                (enterB { st with rng := r2 }) with
            | ok s =>
              simp only [branchBody, childRes, hgd, h0, hA, hBlt, hcase, if_true, if_false,
                true_and, and_true]
              exact stepDraw_spec cfg f (branchGo cfg n) x y .Trunk (life - 1) _ _ _ _
                (hch.2 s hcase) hcontA
            | panicked =>
              simp only [branchBody, childRes, hgd, h0, hA, hBlt, hcase, if_true, if_false,
                true_and, and_true]
              exact ⟨(fun hh => nomatch hh), (fun s hs => nomatch hs)⟩
            | fuelOut => exact absurd hcase hch.1
          · by_cases hC : (t = .ShootLeft ∨ t = .ShootRight) ∧ life - 1 < cfg.multiplier + 2
            · have hnT : ¬ t = BranchType.Trunk := by
                rcases hC.1 with h | h <;> subst h <;> exact fun hh => nomatch hh
              have hch := ih .Dying (life - 1) x y cfg.multiplier (enterB { st with rng := r2 })
                (by simp [enterB, hr2f]) hbDying
              cases hcase : branchGo cfg n x y .Dying (life - 1) cfg.multiplier
                  (enterB { st with rng := r2 }) with
              | ok s =>
                simp only [branchBody, childRes, hgd, h0, hA, hnT, hC, hcase, if_true, if_false,
                  true_and, and_true, false_and, and_false]
                exact stepDraw_spec cfg f (branchGo cfg n) x y t (life - 1) _ _ _ _
                  (hch.2 s hcase) hcontA
              | panicked =>
                simp only [branchBody, childRes, hgd, h0, hA, hnT, hC, hcase, if_true, if_false,
                  true_and, and_true, false_and, and_false]
                exact ⟨(fun hh => nomatch hh), (fun s hs => nomatch hs)⟩
              | fuelOut => exact absurd hcase hch.1
            · by_cases hD : t = .Trunk
              · subst hD
                have hB2 : ¬ life - 1 < cfg.multiplier + 2 := fun hh => hB ⟨rfl, hh⟩
                have h8 : (intn 8 (intn 3 r2).2).1 ≠ 0 := by
                  show r2.f (r2.pos + 1) % 8 ≠ 0
                  rw [hr2, hst]
                  exact hf _
                have hguard : ¬ ((intn 8 (intn 3 r2).2).1 = 0 ∧ 7 < life - 1) :=
                  fun hh => h8 hh.1
                cases hbc : branchCond cfg (intn 3 r2).1 (life - 1) with
                | fuelOut => exact absurd hbc (branchCond_ne_fuelOut cfg _ _)
                | panicked =>
                  simp only [branchBody, childRes, hgd, h0, hA, hB2, hbc, if_true, if_false,
                    true_and, and_true, false_and, and_false, false_or, or_false]
                  exact ⟨(fun hh => nomatch hh), (fun s hs => nomatch hs)⟩
                | ok cond =>
                  cases cond with
                  | false =>
                    simp only [branchBody, childRes, hgd, h0, hA, hB2, hbc, if_true, if_false,
                      true_and, and_true, false_and, and_false, false_or, or_false]
                    exact stepDraw_spec cfg f (branchGo cfg n) x y .Trunk (life - 1) _ _ _ _
                      hr2f hcontA
                  | true =>
                    by_cases hE : cd ≤ 0
                    · have hbS : ∀ k : BranchType, k = .ShootLeft ∨ k = .ShootRight →
                          fuelNeed cfg k (life - 1 + cfg.multiplier) ≤ n := by
                        rintro k (hk | hk) <;> subst hk <;>
                          simp only [fuelNeed] at hfl ⊢ <;> omega
                      by_cases hK : (st.shoots + 1).tmod 2 = 0
                      · have hch := ih .ShootLeft (life - 1 + cfg.multiplier) x y cfg.multiplier
                          (enterB { st with rng := (intn 8 (intn 3 r2).2).2, shoots := st.shoots + 1 })
                          (by simp only [enterB]; exact hr2f) (hbS _ (Or.inl rfl))
                        cases hcase : branchGo cfg n x y .ShootLeft (life - 1 + cfg.multiplier)
                            cfg.multiplier (enterB { st with rng := (intn 8 (intn 3 r2).2).2, shoots := st.shoots + 1 }) with
                        | ok s =>
                          simp only [branchBody, childRes, hgd, h0, hA, hB2, hbc, hguard, hE, hK,
                            hcase, if_true, if_false, true_and, and_true, false_and, and_false,
                            false_or, or_false]
                          exact stepDraw_spec cfg f (branchGo cfg n) x y .Trunk (life - 1) _ _ _ _
                            (hch.2 s hcase) hcontA
                        | panicked =>
                          simp only [branchBody, childRes, hgd, h0, hA, hB2, hbc, hguard, hE, hK,
                            hcase, if_true, if_false, true_and, and_true, false_and, and_false,
                            false_or, or_false]
                          exact ⟨(fun hh => nomatch hh), (fun s hs => nomatch hs)⟩
                        | fuelOut => exact absurd hcase hch.1
                      · have hch := ih .ShootRight (life - 1 + cfg.multiplier) x y cfg.multiplier
                          (enterB { st with rng := (intn 8 (intn 3 r2).2).2, shoots := st.shoots + 1 })
                          (by simp only [enterB]; exact hr2f) (hbS _ (Or.inr rfl))
                        cases hcase : branchGo cfg n x y .ShootRight (life - 1 + cfg.multiplier)
                            cfg.multiplier (enterB { st with rng := (intn 8 (intn 3 r2).2).2, shoots := st.shoots + 1 }) with
                        | ok s =>
                          simp only [branchBody, childRes, hgd, h0, hA, hB2, hbc, hguard, hE, hK,
                            hcase, if_true, if_false, true_and, and_true, false_and, and_false,
                            false_or, or_false]
                          exact stepDraw_spec cfg f (branchGo cfg n) x y .Trunk (life - 1) _ _ _ _
                            (hch.2 s hcase) hcontA
                        | panicked =>
                          simp only [branchBody, childRes, hgd, h0, hA, hB2, hbc, hguard, hE, hK,
                            hcase, if_true, if_false, true_and, and_true, false_and, and_false,
                            false_or, or_false]
                          exact ⟨(fun hh => nomatch hh), (fun s hs => nomatch hs)⟩
                        | fuelOut => exact absurd hcase hch.1
                    · simp only [branchBody, childRes, hgd, h0, hA, hB2, hbc, hguard, hE, if_true,
                        if_false, true_and, and_true, false_and, and_false, false_or, or_false]
                      exact stepDraw_spec cfg f (branchGo cfg n) x y .Trunk (life - 1) _ _ _ _
                        hr2f hcontA
              · simp only [branchBody, childRes, hgd, h0, hA, hB, hC, hD, if_true, if_false]
                exact stepDraw_spec cfg f (branchGo cfg n) x y t (life - 1) _ _ _ _
                  hr2f hcontA

/-- C4 counterexample: with life 9 and multiplier 5 (well inside the claimed
ranges) there is an RNG stream - the constant-24 source - on which the
Branch recursion exceeds a million-step fuel ceiling (and, by
`adv_trunk_fuelOut`, every other ceiling): the code contains no defensive
step ceiling and its recursion is not bounded over all streams. -/
theorem branch_exceeds_million_step_ceiling :
    branchTop cfg9 1000000 10 15 .Trunk 9 (st20 advF) = .fuelOut := by
  unfold branchTop
  exact adv_trunk_fuelOut 1000000 10 15 cfg9.multiplier (enterB (st20 advF)) rfl 9 (by norm_num)

/-- C4 amended: for every configuration with life in [0,200] and multiplier
in [0,20], and every RNG stream that never satisfies the trunk-fork roll
(no drawn source value is divisible by 8), the Branch recursion started
with the configured life completes within fuel life + multiplier + 2 - in
particular the recursion depth cannot exceed every bound; unbounded growth
requires the fork dice to keep firing with positive jitter. -/
theorem branch_terminates_without_trunk_forks (cfg : Config) (f : Nat → Nat) (p : Nat)
    (x y life : Int) (canvas : List (List Char)) (colors : List (List String))
    (br sh : Int) (fuel : Nat)
    (hf : ∀ i, f i % 8 ≠ 0)
    (_hlife : 0 ≤ life ∧ life ≤ 200) (_hmult : 0 ≤ cfg.multiplier ∧ cfg.multiplier ≤ 20)
    (hfuel : fuelNeed cfg .Trunk life ≤ fuel) :
    branchTop cfg fuel x y .Trunk life
      { canvas := canvas, colors := colors, rng := ⟨f, p⟩, branches := br, shoots := sh }
      ≠ .fuelOut := by
  unfold branchTop
  exact (branchGo_no_fork cfg f hf fuel .Trunk life x y cfg.multiplier _ rfl hfuel).1

/-- C4 amended witness: the default-tunables configuration (life 10,
multiplier 3) with the constant-1 stream finishes within fuel 15. -/
theorem branch_terminates_without_trunk_forks_w :
    branchTop cfgT1 15 5 5 .Trunk 10
      { canvas := mkCanvas 20 20, colors := mkColors 20 20, rng := ⟨fun _ => 1, 0⟩,
        branches := 0, shoots := 0 } ≠ .fuelOut :=
  branch_terminates_without_trunk_forks cfgT1 (fun _ => 1) 0 5 5 10 (mkCanvas 20 20)
    (mkColors 20 20) 0 0 15 (fun i => by show (1 : Nat) % 8 ≠ 0; decide) ⟨by decide, by decide⟩
    ⟨by decide, by decide⟩ (by decide)

end Gobonsai
